import Mathlib

/-!
Shallow embedding of the declarative event-binding layer in
src/assignEventHandlers.js, together with theorems checking the
specification of the repository against it.

The JS program has four parts, all inside assignAutoboundEventHandlers:
  - convertToArray(str, delimiter = ,): null check, then
    str.split(delimiter).map(arg => arg.trim())
  - confirmFunctionsExist(functions): for each name, throw
    "This autobound handler was not found: NAME" unless
    autoboundEventHandlers[NAME] is a function
  - assignElementEventHandlers(events): events.map((event, index) =>
    element.addEventListener(event, e => {
      const handlerName = functions[index];
      autoboundEventHandlers[handlerName].call(element, e); }))
  - the top level: querySelectorAll over elements having data-events,
    then forEach element: parse data-events, parse data-handlers,
    validate, attach.

Strings are modelled by String; the split and trim of JS are re-implemented
over the underlying character lists because the library versions do not
reduce inside the kernel. Thrown JS strings are modelled by an error
inductive that keeps the data interpolated into the template string.
-/

deriving instance DecidableEq for Except

namespace AutoBind

/-- Values a JS property lookup in the handler registry can produce:
null, a function (identified by a numeric id so that distinct registry
functions are distinguishable), or any other non-callable value. An
absent property is modelled by Option.none around this type. -/
inductive JSValue where
  | vNull : JSValue
  | vFunc : Nat → JSValue
  | vOther : JSValue
deriving DecidableEq

/-- The ambient autoboundEventHandlers object: a mapping from property
name to the stored value, none when the property is absent. -/
abbrev Registry := String → Option JSValue

/-- Attempts to strip the first list off the front of the second,
returning the remainder on success. Used to locate delimiter occurrences
exactly as JS String.prototype.split does. -/
def matchSep : List Char → List Char → Option (List Char)
  | [], cs => some cs
  | _ :: _, [] => none
  | a :: as, c :: cs => if a = c then matchSep as cs else none

/-- Worker for the split: walks the character list, emitting the token
accumulated so far (in reverse) whenever the separator matches at the
current position. The fuel argument only makes the recursion structural;
every step consumes at least one character, so fuel equal to the length
of the input plus one is always enough and the fuel-exhausted branch is
unreachable at the call site below. -/
def jsSplitGo (sep : List Char) : Nat → List Char → List Char → List (List Char)
  | 0, acc, rest => [acc.reverse ++ rest]
  | _ + 1, acc, [] => [acc.reverse]
  | fuel + 1, acc, c :: cs =>
    match matchSep sep (c :: cs) with
    | some rest => acc.reverse :: jsSplitGo sep fuel [] rest
    | none => jsSplitGo sep fuel (c :: acc) cs

/-- JS str.split(delimiter) for a non-empty string delimiter; an empty
delimiter splits the string into its individual characters, as in JS. -/
def jsSplit (s delimiter : String) : List String :=
  if delimiter.data = [] then s.data.map (fun c => String.mk [c])
  else (jsSplitGo delimiter.data (s.data.length + 1) [] s.data).map String.mk

/-- JS String.prototype.trim: drops whitespace characters from both ends. -/
def jsTrim (s : String) : String :=
  String.mk (((s.data.dropWhile Char.isWhitespace).reverse.dropWhile
    Char.isWhitespace).reverse)

/-- The two exceptions the binder throws, keeping the data that the JS
template strings interpolate. nullStrArgument stands for the thrown
string "convertToArray() failed with null str argument" and
handlerNotFound n for "This autobound handler was not found: n". -/
inductive JsError where
  | nullStrArgument : JsError
  | handlerNotFound : String → JsError
deriving DecidableEq

/-- convertToArray(str, delimiter): throws on null str, otherwise splits
on the delimiter and trims every token. The JS delimiter parameter
defaults to a comma; both call sites in the source use that default, so
callers below pass the comma explicitly. -/
def convertToArray (str : Option String) (delimiter : String) :
    Except JsError (List String) :=
  match str with
  | none => Except.error JsError.nullStrArgument
  | some s => Except.ok ((jsSplit s delimiter).map jsTrim)

/-- confirmFunctionsExist(functions): for each name in order, throw
unless the registry holds a function under that name. The JS test is
value === null or typeof value !== function, so exactly a stored
function passes. The throw inside Array.prototype.map aborts the
remaining iterations, hence the short-circuit recursion. -/
def confirmFunctionsExist (registry : Registry) :
    List String → Except JsError Unit
  | [] => Except.ok ()
  | fn :: rest =>
    match registry fn with
    | some (JSValue.vFunc _) => confirmFunctionsExist registry rest
    | _ => Except.error (JsError.handlerNotFound fn)

/-- One element of the document: its identity and the raw values of the
two declarative attributes, none when the attribute is absent
(getAttribute returns null). -/
structure Elem where
  id : Nat
  dataEvents : Option String
  dataHandlers : Option String
deriving DecidableEq

/-- One addEventListener registration made by the binder. The closure
passed to addEventListener captures the element, the parsed handler-name
list and the numeric index, and resolves the handler name through that
index only when the event fires; the record stores exactly those
captures. -/
structure AttachedListener where
  elemId : Nat
  eventName : String
  functions : List String
  index : Nat
deriving DecidableEq

/-- Worker mirroring events.map((event, index) => addEventListener(...)):
one listener per event token, in list order, carrying the running index. -/
def assignElementEventHandlersAux (elemId : Nat) (functions : List String) :
    Nat → List String → List AttachedListener
  | _, [] => []
  | index, event :: rest =>
    ⟨elemId, event, functions, index⟩ ::
      assignElementEventHandlersAux elemId functions (index + 1) rest

/-- assignElementEventHandlers(events) for one element: the list of
listener registrations it performs, in order. -/
def assignElementEventHandlers (elemId : Nat) (functions : List String)
    (events : List String) : List AttachedListener :=
  assignElementEventHandlersAux elemId functions 0 events

/-- The per-element body of the forEach in the source: parse data-events,
parse data-handlers, validate the handler names, then attach. Any throw
propagates and nothing is attached for the element. -/
def bindElement (registry : Registry) (el : Elem) :
    Except JsError (List AttachedListener) :=
  match convertToArray el.dataEvents "," with
  | Except.error err => Except.error err
  | Except.ok events =>
    match convertToArray el.dataHandlers "," with
    | Except.error err => Except.error err
    | Except.ok functions =>
      match confirmFunctionsExist registry functions with
      | Except.error err => Except.error err
      | Except.ok _ =>
        Except.ok (assignElementEventHandlers el.id functions events)

/-- The mutable ambient state the binding pass runs in: the global
handler registry and the listeners attached so far. -/
structure BindState where
  registry : Registry
  attached : List AttachedListener

/-- The forEach loop over the selected elements: on a throw the loop
stops, the error propagates, and listeners already attached remain. -/
def processElements : BindState → List Elem → BindState × Option JsError
  | st, [] => (st, none)
  | st, el :: rest =>
    match bindElement st.registry el with
    | Except.error err => (st, some err)
    | Except.ok ls => processElements ⟨st.registry, st.attached ++ ls⟩ rest

/-- document.querySelectorAll over elements carrying data-events, in
document order. -/
def selectedElements (doc : List Elem) : List Elem :=
  doc.filter fun el => el.dataEvents.isSome

/-- assignAutoboundEventHandlers(): the whole binding pass. -/
def assignAutoboundEventHandlers (doc : List Elem) (st : BindState) :
    BindState × Option JsError :=
  processElements st (selectedElements doc)

/-- A JS property key: accessing an object with an undefined key coerces
the key to the string "undefined". -/
def jsKey : Option String → String
  | some s => s
  | none => "undefined"

/-- The host throws a TypeError at dispatch when the looked-up registry
value is not callable; the key used for the lookup is recorded. -/
inductive DispatchError where
  | notAFunction : String → DispatchError
deriving DecidableEq

/-- One completed handler invocation: which registry function ran, the
this argument it received (the element), and the event object argument. -/
structure Call where
  fid : Nat
  thisArg : Nat
  arg : Nat
deriving DecidableEq

/-- Runs the closure a listener registered: handlerName = functions[index]
(undefined past the end of the list), then
autoboundEventHandlers[handlerName].call(element, e). -/
def invokeListener (registry : Registry) (l : AttachedListener) (e : Nat) :
    Except DispatchError Call :=
  match registry (jsKey (l.functions.get? l.index)) with
  | some (JSValue.vFunc fid) => Except.ok ⟨fid, l.elemId, e⟩
  | _ => Except.error (DispatchError.notAFunction (jsKey (l.functions.get? l.index)))

/-- The host dispatch of an event object e of type eventName on the
element elemId: every listener registered for that pair runs, in
registration order. -/
def dispatchEvent (registry : Registry) (attached : List AttachedListener)
    (elemId : Nat) (eventName : String) (e : Nat) :
    List (Except DispatchError Call) :=
  (attached.filter fun l =>
    l.elemId == elemId && l.eventName == eventName).map
    fun l => invokeListener registry l e

/-- A small concrete registry used to instantiate theorems: two
functions under the names a and b, nothing else. -/
def testRegistry : Registry := fun s =>
  if s = "a" then some (JSValue.vFunc 0)
  else if s = "b" then some (JSValue.vFunc 1)
  else none

/-!
Helper lemmas about the embedded definitions, shared by the claim
theorems below.
-/

/-- The listener worker attaches exactly one listener per event token. -/
theorem assignAux_length (elemId : Nat) (fns : List String) :
    ∀ (evs : List String) (n : Nat),
      (assignElementEventHandlersAux elemId fns n evs).length = evs.length
  | [], _ => rfl
  | _ :: rest, n => by
    simp [assignElementEventHandlersAux, assignAux_length elemId fns rest (n + 1)]

/-- Shape of the listener attached at each position of the worker output:
the event token at that position, the shared handler-name list, and the
running index. -/
theorem assignAux_get? (elemId : Nat) (fns : List String) :
    ∀ (evs : List String) (n i : Nat),
      (assignElementEventHandlersAux elemId fns n evs).get? i
        = (evs.get? i).map (fun ev => ⟨elemId, ev, fns, n + i⟩)
  | [], _, _ => by simp [assignElementEventHandlersAux]
  | ev :: rest, n, 0 => by simp [assignElementEventHandlersAux]
  | ev :: rest, n, i + 1 => by
    have := assignAux_get? elemId fns rest (n + 1) i
    simp only [assignElementEventHandlersAux, List.get?_cons_succ, this]
    have harith : ∀ k, n + 1 + k = n + (k + 1) := fun k => by omega
    simp [harith]

/-- Counting the listeners the worker attaches for one event name on the
element equals the number of occurrences of that name in the event list. -/
theorem assignAux_countP (elemId : Nat) (fns : List String) (ev : String) :
    ∀ (evs : List String) (n : Nat),
      (assignElementEventHandlersAux elemId fns n evs).countP
          (fun l => l.elemId == elemId && l.eventName == ev)
        = evs.count ev
  | [], _ => rfl
  | e :: rest, n => by
    simp only [assignElementEventHandlersAux, List.countP_cons,
      assignAux_countP elemId fns ev rest (n + 1), List.count_cons]
    simp

/-- Unfolding of the per-element binding to its innermost decision once
both parses are fixed; the outer matches reduce definitionally. -/
theorem bindElement_reduce (registry : Registry) (el : Elem)
    (events functions : List String)
    (hev : convertToArray el.dataEvents "," = Except.ok events)
    (hfn : convertToArray el.dataHandlers "," = Except.ok functions) :
    bindElement registry el
      = match confirmFunctionsExist registry functions with
        | Except.error err => Except.error err
        | Except.ok _ =>
          Except.ok (assignElementEventHandlers el.id functions events) := by
  unfold bindElement
  rw [hev, hfn]

/-- Inversion of a successful per-element binding: validation passed and
the result is exactly the worker output. -/
theorem bindElement_ok_inv (registry : Registry) (el : Elem)
    (events functions : List String) (L : List AttachedListener)
    (hev : convertToArray el.dataEvents "," = Except.ok events)
    (hfn : convertToArray el.dataHandlers "," = Except.ok functions)
    (hbind : bindElement registry el = Except.ok L) :
    confirmFunctionsExist registry functions = Except.ok ()
      ∧ L = assignElementEventHandlers el.id functions events := by
  rw [bindElement_reduce registry el events functions hev hfn] at hbind
  cases hcf : confirmFunctionsExist registry functions with
  | error err =>
    rw [hcf] at hbind
    exact absurd hbind (by simp)
  | ok u =>
    cases u
    rw [hcf] at hbind
    have h2 : Except.ok (assignElementEventHandlers el.id functions events)
        = Except.ok L := hbind
    injection h2 with h3
    exact ⟨rfl, h3.symm⟩

/-- Forward direction: when both attributes parse and validation passes,
the per-element binding succeeds with the worker output. -/
theorem bindElement_eq_ok (registry : Registry) (el : Elem)
    (events functions : List String)
    (hev : convertToArray el.dataEvents "," = Except.ok events)
    (hfn : convertToArray el.dataHandlers "," = Except.ok functions)
    (hval : confirmFunctionsExist registry functions = Except.ok ()) :
    bindElement registry el
      = Except.ok (assignElementEventHandlers el.id functions events) := by
  rw [bindElement_reduce registry el events functions hev hfn, hval]

/-- Equation for the loop on an empty element list. -/
theorem processElements_nil (st : BindState) :
    processElements st [] = (st, none) := rfl

/-- Equation for the loop on a leading element, before the per-element
outcome is known. -/
theorem processElements_cons_def (r : Registry) (A : List AttachedListener)
    (el : Elem) (rest : List Elem) :
    processElements ⟨r, A⟩ (el :: rest)
      = match bindElement r el with
        | Except.error err => ((⟨r, A⟩ : BindState), some err)
        | Except.ok ls => processElements ⟨r, A ++ ls⟩ rest := rfl

/-- A throw while handling the leading element stops the loop with the
state unchanged. -/
theorem processElements_cons_error (r : Registry) (A : List AttachedListener)
    (el : Elem) (rest : List Elem) (err : JsError)
    (hb : bindElement r el = Except.error err) :
    processElements ⟨r, A⟩ (el :: rest) = (⟨r, A⟩, some err) := by
  rw [processElements_cons_def, hb]

/-- A successful leading element appends its listeners and the loop
continues. -/
theorem processElements_cons_ok (r : Registry) (A : List AttachedListener)
    (el : Elem) (rest : List Elem) (ls : List AttachedListener)
    (hb : bindElement r el = Except.ok ls) :
    processElements ⟨r, A⟩ (el :: rest) = processElements ⟨r, A ++ ls⟩ rest := by
  rw [processElements_cons_def, hb]

/-- The loop over elements never changes the registry component of the
state: the binder only reads the registry. -/
theorem processElements_fst_registry :
    ∀ (els : List Elem) (r : Registry) (A : List AttachedListener),
      (processElements ⟨r, A⟩ els).fst.registry = r
  | [], _, _ => rfl
  | el :: rest, r, A => by
    cases hb : bindElement r el with
    | error err => rw [processElements_cons_error r A el rest err hb]
    | ok ls =>
      rw [processElements_cons_ok r A el rest ls hb]
      exact processElements_fst_registry rest r (A ++ ls)

/-- Splitting the loop at a successful left part. -/
theorem processElements_append_of_ok (els₂ : List Elem) :
    ∀ (els₁ : List Elem) (r : Registry) (A : List AttachedListener) (st1 : BindState),
      processElements ⟨r, A⟩ els₁ = (st1, none) →
      processElements ⟨r, A⟩ (els₁ ++ els₂) = processElements st1 els₂
  | [], r, A, st1, h => by
    rw [processElements_nil] at h
    have h2 := congrArg Prod.fst h
    simp only at h2
    rw [List.nil_append, h2]
  | el :: rest, r, A, st1, h => by
    cases hb : bindElement r el with
    | error err =>
      rw [processElements_cons_error r A el rest err hb] at h
      have h2 := congrArg Prod.snd h
      simp at h2
    | ok ls =>
      rw [processElements_cons_ok r A el rest ls hb] at h
      rw [List.cons_append, processElements_cons_ok r A el (rest ++ els₂) ls hb]
      exact processElements_append_of_ok els₂ rest r (A ++ ls) st1 h

/-- The loop only appends to the attached-listener list; its new
contribution and its error outcome are independent of what was already
attached. -/
theorem processElements_shift :
    ∀ (els : List Elem) (r : Registry) (A : List AttachedListener),
      processElements ⟨r, A⟩ els
        = (⟨r, A ++ (processElements ⟨r, []⟩ els).fst.attached⟩,
           (processElements ⟨r, []⟩ els).snd)
  | [], r, A => by simp [processElements_nil]
  | el :: rest, r, A => by
    cases hb : bindElement r el with
    | error err =>
      rw [processElements_cons_error r A el rest err hb,
        processElements_cons_error r [] el rest err hb]
      simp
    | ok ls =>
      rw [processElements_cons_ok r A el rest ls hb,
        processElements_cons_ok r [] el rest ls hb,
        processElements_shift rest r (A ++ ls),
        processElements_shift rest r ([] ++ ls)]
      simp [List.append_assoc]

/-- The document scan distributes over concatenation of documents. -/
theorem selectedElements_append (xs ys : List Elem) :
    selectedElements (xs ++ ys) = selectedElements xs ++ selectedElements ys := by
  simp [selectedElements]

/-- An element carrying the data-events attribute is selected. -/
theorem selectedElements_cons_some (el : Elem) (s : String) (ys : List Elem)
    (h : el.dataEvents = some s) :
    selectedElements (el :: ys) = el :: selectedElements ys := by
  simp [selectedElements, List.filter_cons, h]

/-- An element without the data-events attribute is not selected. -/
theorem selectedElements_cons_none (el : Elem) (ys : List Elem)
    (h : el.dataEvents = none) :
    selectedElements (el :: ys) = selectedElements ys := by
  simp [selectedElements, List.filter_cons, h]

/-- Dispatch over a concatenation of listener lists runs the two parts
in order. -/
theorem dispatchEvent_append (registry : Registry)
    (a b : List AttachedListener) (elemId : Nat) (eventName : String) (e : Nat) :
    dispatchEvent registry (a ++ b) elemId eventName e
      = dispatchEvent registry a elemId eventName e
        ++ dispatchEvent registry b elemId eventName e := by
  simp [dispatchEvent]

/-- The validator reports the first name in order whose registry entry
is not a function, whatever comes after it. -/
theorem confirmFunctionsExist_first_bad :
    ∀ (names : List String) (registry : Registry) (i : Nat) (hi : i < names.length),
      (∀ j (hj : j < i),
        ∃ fid, registry (names.get ⟨j, Nat.lt_trans hj hi⟩)
          = some (JSValue.vFunc fid)) →
      (∀ fid, registry (names.get ⟨i, hi⟩) ≠ some (JSValue.vFunc fid)) →
      confirmFunctionsExist registry names
        = Except.error (JsError.handlerNotFound (names.get ⟨i, hi⟩))
  | [], _, i, hi, _, _ => absurd hi (by simp)
  | fn :: rest, registry, 0, hi, hgood, hbad => by
    unfold confirmFunctionsExist
    cases hr : registry fn with
    | none => rfl
    | some v =>
      cases v with
      | vNull => rfl
      | vOther => rfl
      | vFunc fid => exact absurd hr (hbad fid)
  | fn :: rest, registry, i + 1, hi, hgood, hbad => by
    obtain ⟨fid, hfid⟩ := hgood 0 (Nat.succ_pos i)
    have hfid2 : registry fn = some (JSValue.vFunc fid) := hfid
    unfold confirmFunctionsExist
    rw [hfid2]
    exact confirmFunctionsExist_first_bad rest registry i (Nat.lt_of_succ_lt_succ hi)
      (fun j hj => hgood (j + 1) (Nat.succ_lt_succ hj))
      hbad

/-!
Theorems settling the claims, with witnesses instantiating the ones that
carry hypotheses.
-/

/-- C4: for every non-null input string and every delimiter, the token
parser succeeds and returns exactly the ordered tokens obtained by
splitting the string on the delimiter and stripping surrounding
whitespace from each one, position by position, preserving order and
duplicates. -/
theorem c4_token_parser_splits_and_trims (s delimiter : String) :
    ∃ ts : List String,
      convertToArray (some s) delimiter = Except.ok ts
        ∧ ts.length = (jsSplit s delimiter).length
        ∧ ∀ i : Nat, ts.get? i = ((jsSplit s delimiter).get? i).map jsTrim := by
  refine ⟨(jsSplit s delimiter).map jsTrim, rfl, by simp, fun i => ?_⟩
  simp [List.get?_map]

/-- C9: a binding pass leaves the handler registry unchanged; the pass
only reads registry entries and never adds, removes, or replaces one. -/
theorem c9_registry_unchanged (doc : List Elem) (st : BindState) :
    (assignAutoboundEventHandlers doc st).fst.registry = st.registry := by
  obtain ⟨r, A⟩ := st
  exact processElements_fst_registry (selectedElements doc) r A

/-- C7: the binding pass processes an element if and only if it carries a
non-absent data-events attribute, regardless of its data-handlers
attribute: selection is exactly membership with the attribute present,
and an element without the attribute can be deleted from the document
without changing the outcome of the whole pass. -/
theorem c7_selection_rule :
    (∀ (doc : List Elem) (el : Elem),
        el ∈ selectedElements doc ↔ el ∈ doc ∧ el.dataEvents.isSome = true)
    ∧ ∀ (xs ys : List Elem) (el : Elem) (st : BindState),
        el.dataEvents = none →
        assignAutoboundEventHandlers (xs ++ el :: ys) st
          = assignAutoboundEventHandlers (xs ++ ys) st := by
  constructor
  · intro doc el
    simp [selectedElements, List.mem_filter]
  · intro xs ys el st h
    unfold assignAutoboundEventHandlers
    rw [selectedElements_append, selectedElements_cons_none el ys h,
      selectedElements_append]

/-- Witness for C7 at a concrete document: an element without the
data-events attribute (but with a data-handlers attribute) plays no role
in the pass. -/
theorem c7_selection_rule_witness :
    assignAutoboundEventHandlers
        ([⟨0, some "click", some "a"⟩] ++ ⟨1, none, some "a"⟩ :: [])
        ⟨testRegistry, []⟩
      = assignAutoboundEventHandlers ([⟨0, some "click", some "a"⟩] ++ [])
          ⟨testRegistry, []⟩ :=
  c7_selection_rule.2 [⟨0, some "click", some "a"⟩] [] ⟨1, none, some "a"⟩
    ⟨testRegistry, []⟩ rfl

/-- C5 is refuted as stated: an element whose event-list attribute is
absent is never selected by the pass, so no invalid-input error is
raised for it. The pass over a document holding only such an element
(its handler-list present) finishes with no error and attaches
nothing, while the claim requires a raised error. -/
theorem c5_counterexample :
    (assignAutoboundEventHandlers [⟨0, none, some "a"⟩] ⟨testRegistry, []⟩).snd
        = none
    ∧ (assignAutoboundEventHandlers [⟨0, none, some "a"⟩]
        ⟨testRegistry, []⟩).fst.attached = [] :=
  ⟨rfl, rfl⟩

/-- C5 (amended): for every element that the pass does select (event-list
attribute present) but whose handler-list attribute is absent, the token
parser raises the invalid-input error and binding for the element does
not proceed: the state is unchanged, so no listener is attached to it.
An element whose event-list attribute is absent is not selected at all,
so for it neither error nor listener arises. -/
theorem c5_null_handler_attribute (r : Registry) (A : List AttachedListener)
    (el : Elem) (s : String) (rest : List Elem)
    (hev : el.dataEvents = some s) (hhd : el.dataHandlers = none) :
    (∀ d : String,
      convertToArray el.dataHandlers d = Except.error JsError.nullStrArgument)
    ∧ bindElement r el = Except.error JsError.nullStrArgument
    ∧ processElements ⟨r, A⟩ (el :: rest)
        = (⟨r, A⟩, some JsError.nullStrArgument) := by
  have hconv : ∀ d : String,
      convertToArray el.dataHandlers d = Except.error JsError.nullStrArgument := by
    intro d
    rw [hhd]
    rfl
  have hb : bindElement r el = Except.error JsError.nullStrArgument := by
    unfold bindElement
    rw [hev, hhd]
    rfl
  exact ⟨hconv, hb, processElements_cons_error r A el rest _ hb⟩

/-- Witness for the amended C5 at a concrete element. -/
theorem c5_null_handler_attribute_witness :
    convertToArray ((⟨6, some "click", none⟩ : Elem).dataHandlers) ","
        = Except.error JsError.nullStrArgument
    ∧ bindElement testRegistry ⟨6, some "click", none⟩
        = Except.error JsError.nullStrArgument
    ∧ processElements ⟨testRegistry, []⟩ [⟨6, some "click", none⟩]
        = (⟨testRegistry, []⟩, some JsError.nullStrArgument) :=
  ⟨(c5_null_handler_attribute testRegistry [] ⟨6, some "click", none⟩ "click" []
      rfl rfl).1 ",",
   (c5_null_handler_attribute testRegistry [] ⟨6, some "click", none⟩ "click" []
      rfl rfl).2.1,
   (c5_null_handler_attribute testRegistry [] ⟨6, some "click", none⟩ "click" []
      rfl rfl).2.2⟩

/-- C3: the validator checks names in order against the registry and, at
the first name whose entry is missing or not callable, raises the
handler-not-found error identifying that name, whatever names follow
(they are not consulted); an element whose parsed handler list is such a
list fails to bind with exactly that error and the state is unchanged,
so no listener is attached for any of its pairs. -/
theorem c3_validator_short_circuits (registry : Registry) (names : List String)
    (i : Nat) (hi : i < names.length)
    (hgood : ∀ j (hj : j < i),
      ∃ fid, registry (names.get ⟨j, Nat.lt_trans hj hi⟩)
        = some (JSValue.vFunc fid))
    (hbad : ∀ fid, registry (names.get ⟨i, hi⟩) ≠ some (JSValue.vFunc fid)) :
    confirmFunctionsExist registry names
      = Except.error (JsError.handlerNotFound (names.get ⟨i, hi⟩))
    ∧ ∀ (el : Elem) (events : List String) (A : List AttachedListener)
        (rest : List Elem),
        convertToArray el.dataEvents "," = Except.ok events →
        convertToArray el.dataHandlers "," = Except.ok names →
        processElements ⟨registry, A⟩ (el :: rest)
          = (⟨registry, A⟩, some (JsError.handlerNotFound (names.get ⟨i, hi⟩))) := by
  have hcf := confirmFunctionsExist_first_bad names registry i hi hgood hbad
  refine ⟨hcf, fun el events A rest hev hfn => ?_⟩
  have hb : bindElement registry el
      = Except.error (JsError.handlerNotFound (names.get ⟨i, hi⟩)) := by
    rw [bindElement_reduce registry el events names hev hfn, hcf]
  exact processElements_cons_error registry A el rest _ hb

/-- Witness for C3 at a concrete registry and element: the name zz is
absent from the registry, the name after it is present and is never
consulted, and the element with that handler list binds nothing. -/
theorem c3_validator_short_circuits_witness :
    confirmFunctionsExist testRegistry ["a", "zz", "b"]
        = Except.error (JsError.handlerNotFound "zz")
    ∧ processElements ⟨testRegistry, []⟩
          [⟨4, some "click, focus", some "a, zz, b"⟩]
        = (⟨testRegistry, []⟩, some (JsError.handlerNotFound "zz")) := by
  have h := c3_validator_short_circuits testRegistry ["a", "zz", "b"] 1 (by decide)
    (by
      intro j hj
      have hj0 : j = 0 := by omega
      subst hj0
      show ∃ fid, testRegistry "a" = some (JSValue.vFunc fid)
      exact ⟨0, by decide⟩)
    (fun fid h => Option.noConfusion h)
  exact ⟨h.1, h.2 ⟨4, some "click, focus", some "a, zz, b"⟩ ["click", "focus"] [] []
    (by decide) (by decide)⟩

/-- C1: for an element bound successfully from equal-length parsed event
and handler lists, dispatching the event that appears at index i of the
event list runs the registry function registered under the handler name
at index i, with the triggering event object as the sole argument and
the element itself as the execution context. -/
theorem c1_dispatch_runs_indexed_handler (registry : Registry) (el : Elem)
    (events functions : List String) (L : List AttachedListener)
    (i fid e : Nat)
    (hev : convertToArray el.dataEvents "," = Except.ok events)
    (hfn : convertToArray el.dataHandlers "," = Except.ok functions)
    (hbind : bindElement registry el = Except.ok L)
    (hlen : events.length = functions.length)
    (hi : i < events.length)
    (hreg : registry (functions.get ⟨i, hlen ▸ hi⟩) = some (JSValue.vFunc fid)) :
    Except.ok (Call.mk fid el.id e)
      ∈ dispatchEvent registry L el.id (events.get ⟨i, hi⟩) e := by
  obtain ⟨hval, hL⟩ := bindElement_ok_inv registry el events functions L hev hfn hbind
  subst hL
  have hget : (assignElementEventHandlers el.id functions events).get? i
      = some ⟨el.id, events.get ⟨i, hi⟩, functions, i⟩ := by
    unfold assignElementEventHandlers
    rw [assignAux_get? el.id functions events 0 i, List.get?_eq_get hi]
    simp
  have hmem : (⟨el.id, events.get ⟨i, hi⟩, functions, i⟩ : AttachedListener)
      ∈ assignElementEventHandlers el.id functions events := List.get?_mem hget
  have hfilter : (⟨el.id, events.get ⟨i, hi⟩, functions, i⟩ : AttachedListener)
      ∈ (assignElementEventHandlers el.id functions events).filter
          (fun l => l.elemId == el.id && l.eventName == events.get ⟨i, hi⟩) :=
    List.mem_filter.mpr ⟨hmem, by simp⟩
  have hinv : invokeListener registry ⟨el.id, events.get ⟨i, hi⟩, functions, i⟩ e
      = Except.ok (Call.mk fid el.id e) := by
    unfold invokeListener
    have hgf : functions.get? i = some (functions.get ⟨i, hlen ▸ hi⟩) :=
      List.get?_eq_get (hlen ▸ hi)
    simp only [hgf, jsKey]
    rw [hreg]
  have hin := List.mem_map_of_mem (fun l => invokeListener registry l e) hfilter
  have hin2 : invokeListener registry
      (⟨el.id, events.get ⟨i, hi⟩, functions, i⟩ : AttachedListener) e
      ∈ List.map (fun l => invokeListener registry l e)
        (List.filter (fun l => l.elemId == el.id && l.eventName == events.get ⟨i, hi⟩)
          (assignElementEventHandlers el.id functions events)) := hin
  rw [hinv] at hin2
  exact hin2

/-- Witness for C1 at a concrete element and registry: the focus event
sits at index 1, so dispatching it runs the function stored under the
name at index 1, with the event object 7 and the element id 3. -/
theorem c1_dispatch_runs_indexed_handler_witness :
    Except.ok (Call.mk 1 3 7)
      ∈ dispatchEvent testRegistry
          (assignElementEventHandlers 3 ["a", "b"] ["click", "focus"]) 3 "focus" 7 :=
  c1_dispatch_runs_indexed_handler testRegistry ⟨3, some "click, focus", some "a, b"⟩
    ["click", "focus"] ["a", "b"]
    (assignElementEventHandlers 3 ["a", "b"] ["click", "focus"])
    1 1 7 (by decide) (by decide) (by decide) (by decide) (by decide) (by decide)

/-- C2: a successful binding attaches exactly one listener per token of
the parsed event list, in the order of that list, without deduplication:
for any event name, a dispatch of that name on the element runs as many
listener closures as the name has occurrences in the event list, so a
repeated name runs its handler once per occurrence. -/
theorem c2_listener_count_and_order (registry : Registry) (el : Elem)
    (events functions : List String) (L : List AttachedListener)
    (hev : convertToArray el.dataEvents "," = Except.ok events)
    (hfn : convertToArray el.dataHandlers "," = Except.ok functions)
    (hbind : bindElement registry el = Except.ok L) :
    L.length = events.length
    ∧ (∀ i : Nat, (L.get? i).map (fun l => l.eventName) = events.get? i)
    ∧ ∀ (ev : String) (e : Nat),
        (dispatchEvent registry L el.id ev e).length = events.count ev := by
  obtain ⟨hval, hL⟩ := bindElement_ok_inv registry el events functions L hev hfn hbind
  subst hL
  refine ⟨assignAux_length el.id functions events 0, fun i => ?_, fun ev e => ?_⟩
  · unfold assignElementEventHandlers
    rw [assignAux_get? el.id functions events 0 i]
    cases events.get? i <;> simp
  · simp only [dispatchEvent, List.length_map, ← List.countP_eq_length_filter]
    exact assignAux_countP el.id functions ev events 0

/-- Witness for C2 at the repeated-event scenario of the specification:
data-events click, click with data-handlers a, a attaches two listeners
and a click dispatch runs two invocations. -/
theorem c2_listener_count_and_order_witness :
    (assignElementEventHandlers 2 ["a", "a"] ["click", "click"]).length
        = (["click", "click"] : List String).length
    ∧ (dispatchEvent testRegistry
          (assignElementEventHandlers 2 ["a", "a"] ["click", "click"])
          2 "click" 0).length
        = (["click", "click"] : List String).count "click" :=
  ⟨(c2_listener_count_and_order testRegistry ⟨2, some "click, click", some "a, a"⟩
      ["click", "click"] ["a", "a"]
      (assignElementEventHandlers 2 ["a", "a"] ["click", "click"])
      (by decide) (by decide) (by decide)).1,
   (c2_listener_count_and_order testRegistry ⟨2, some "click, click", some "a, a"⟩
      ["click", "click"] ["a", "a"]
      (assignElementEventHandlers 2 ["a", "a"] ["click", "click"])
      (by decide) (by decide) (by decide)).2.2 "click" 0⟩

/-- C6: an error raised while processing one element propagates uncaught
out of the binding pass: if the pass over a document prefix succeeds and
the next selected element fails to bind, then the pass over the prefix
extended by that element and any suffix stops at that element with its
error, in the state the prefix reached, so listeners already attached
remain attached and no element of the suffix is processed. -/
theorem c6_error_aborts_pass (xs ys : List Elem) (el : Elem) (s : String)
    (r : Registry) (A : List AttachedListener) (st1 : BindState) (err : JsError)
    (hsel : el.dataEvents = some s)
    (hxs : assignAutoboundEventHandlers xs ⟨r, A⟩ = (st1, none))
    (hbad : bindElement r el = Except.error err) :
    assignAutoboundEventHandlers (xs ++ el :: ys) ⟨r, A⟩ = (st1, some err) := by
  have hreg : st1.registry = r := by
    have h := processElements_fst_registry (selectedElements xs) r A
    have hxs2 : processElements ⟨r, A⟩ (selectedElements xs) = (st1, none) := hxs
    rw [hxs2] at h
    exact h
  unfold assignAutoboundEventHandlers at hxs ⊢
  rw [selectedElements_append, selectedElements_cons_some el s ys hsel,
    processElements_append_of_ok (el :: selectedElements ys) (selectedElements xs)
      r A st1 hxs]
  obtain ⟨r1, A1⟩ := st1
  have hr1 : r1 = r := hreg
  subst hr1
  exact processElements_cons_error r1 A1 el (selectedElements ys) err hbad

/-- Witness for C6 at a concrete document of three elements: the middle
element names an unregistered handler, the pass stops there with the
handler-not-found error, the first element keeps its listener, and the
third element is never processed. -/
theorem c6_error_aborts_pass_witness :
    assignAutoboundEventHandlers
        ([⟨0, some "click", some "a"⟩]
          ++ ⟨1, some "focus", some "zz"⟩ :: [⟨2, some "click", some "b"⟩])
        ⟨testRegistry, []⟩
      = (⟨testRegistry, [⟨0, "click", ["a"], 0⟩]⟩,
         some (JsError.handlerNotFound "zz")) :=
  c6_error_aborts_pass [⟨0, some "click", some "a"⟩] [⟨2, some "click", some "b"⟩]
    ⟨1, some "focus", some "zz"⟩ "focus" testRegistry []
    ⟨testRegistry, [⟨0, "click", ["a"], 0⟩]⟩ (JsError.handlerNotFound "zz")
    rfl rfl (by decide)

/-- C8: running the entry point a second time over the same document
re-scans and re-attaches listeners to every qualifying element again:
after a successful first pass from an empty listener list, a second pass
succeeds, doubles the attached-listener list, and every subsequent
dispatch runs each invocation of one pass twice. -/
theorem c8_double_binding (registry : Registry) (doc : List Elem) (st1 : BindState)
    (h1 : assignAutoboundEventHandlers doc ⟨registry, []⟩ = (st1, none)) :
    ∃ st2 : BindState,
      assignAutoboundEventHandlers doc st1 = (st2, none)
      ∧ st2.attached = st1.attached ++ st1.attached
      ∧ ∀ (elemId e : Nat) (ev : String),
          dispatchEvent registry st2.attached elemId ev e
            = dispatchEvent registry st1.attached elemId ev e
              ++ dispatchEvent registry st1.attached elemId ev e := by
  have h1p : processElements ⟨registry, []⟩ (selectedElements doc) = (st1, none) := h1
  have hreg : st1.registry = registry := by
    have h := processElements_fst_registry (selectedElements doc) registry []
    rw [h1p] at h
    exact h
  obtain ⟨r1, Δ⟩ := st1
  have hr1 : r1 = registry := hreg
  subst hr1
  have hshift := processElements_shift (selectedElements doc) r1 Δ
  rw [h1p] at hshift
  exact ⟨⟨r1, Δ ++ Δ⟩, hshift, rfl,
    fun elemId e ev => dispatchEvent_append r1 Δ Δ elemId ev e⟩

/-- Witness for C8 at a one-element document: a second pass from the
state the first pass produced duplicates the single listener. -/
theorem c8_double_binding_witness :
    ∃ st2 : BindState,
      assignAutoboundEventHandlers [⟨0, some "click", some "a"⟩]
          ⟨testRegistry, [⟨0, "click", ["a"], 0⟩]⟩ = (st2, none)
      ∧ st2.attached
          = (⟨testRegistry, [⟨0, "click", ["a"], 0⟩]⟩ : BindState).attached
            ++ (⟨testRegistry, [⟨0, "click", ["a"], 0⟩]⟩ : BindState).attached
      ∧ ∀ (elemId e : Nat) (ev : String),
          dispatchEvent testRegistry st2.attached elemId ev e
            = dispatchEvent testRegistry [⟨0, "click", ["a"], 0⟩] elemId ev e
              ++ dispatchEvent testRegistry [⟨0, "click", ["a"], 0⟩] elemId ev e :=
  c8_double_binding testRegistry [⟨0, some "click", some "a"⟩]
    ⟨testRegistry, [⟨0, "click", ["a"], 0⟩]⟩ rfl

/-- C10: when the parsed event list is longer than the parsed handler
list and every handler-list name validates, binding still succeeds and
attaches one listener per event token, reporting no error; a listener
whose captured index lies past the end of the handler list resolves an
absent handler name at dispatch time (the undefined property key), so
when no callable entry sits under that key its handler call fails only
when the event fires, not at binding. -/
theorem c10_out_of_range_fails_at_dispatch (registry : Registry) (el : Elem)
    (events functions : List String)
    (hev : convertToArray el.dataEvents "," = Except.ok events)
    (hfn : convertToArray el.dataHandlers "," = Except.ok functions)
    (hval : confirmFunctionsExist registry functions = Except.ok ())
    (hlen : functions.length < events.length)
    (hundef : ∀ fid, registry "undefined" ≠ some (JSValue.vFunc fid)) :
    bindElement registry el
      = Except.ok (assignElementEventHandlers el.id functions events)
    ∧ (assignElementEventHandlers el.id functions events).length = events.length
    ∧ ∀ (i e : Nat) (l : AttachedListener),
        functions.length ≤ i →
        (assignElementEventHandlers el.id functions events).get? i = some l →
        invokeListener registry l e
          = Except.error (DispatchError.notAFunction "undefined") := by
  refine ⟨bindElement_eq_ok registry el events functions hev hfn hval,
    assignAux_length el.id functions events 0, fun i e l hle hget => ?_⟩
  rw [show assignElementEventHandlers el.id functions events
      = assignElementEventHandlersAux el.id functions 0 events from rfl,
    assignAux_get? el.id functions events 0 i] at hget
  cases hev2 : events.get? i with
  | none =>
    rw [hev2] at hget
    exact absurd hget (by simp)
  | some ev =>
    rw [hev2] at hget
    have hl : l = ⟨el.id, ev, functions, 0 + i⟩ := (Option.some.inj hget).symm
    subst hl
    unfold invokeListener
    have hnone : functions.get? (0 + i) = none := by
      rw [Nat.zero_add]
      exact List.get?_eq_none.mpr hle
    simp only [hnone, jsKey]

/-- Witness for C10 at a concrete element with two event tokens and one
handler token: binding succeeds with two listeners, and the listener at
index 1 fails with the undefined-key TypeError when invoked. -/
theorem c10_out_of_range_fails_at_dispatch_witness :
    bindElement testRegistry ⟨5, some "click, focus", some "a"⟩
        = Except.ok (assignElementEventHandlers 5 ["a"] ["click", "focus"])
    ∧ invokeListener testRegistry ⟨5, "focus", ["a"], 1⟩ 9
        = Except.error (DispatchError.notAFunction "undefined") :=
  ⟨(c10_out_of_range_fails_at_dispatch testRegistry
      ⟨5, some "click, focus", some "a"⟩ ["click", "focus"] ["a"]
      (by decide) (by decide) (by decide) (by decide)
      (fun fid h => Option.noConfusion h)).1,
   (c10_out_of_range_fails_at_dispatch testRegistry
      ⟨5, some "click, focus", some "a"⟩ ["click", "focus"] ["a"]
      (by decide) (by decide) (by decide) (by decide)
      (fun fid h => Option.noConfusion h)).2.2 1 9 ⟨5, "focus", ["a"], 1⟩
      (by decide) (by decide)⟩

end AutoBind
